import Mathlib

/-!
Shallow embedding of the langchat server core: the agent lifecycle state
machine, the admission semaphore, the session manager, and the chat request
pipeline, together with theorems settling the specification claims.

Time is modeled as a natural number, Go errors as `Option String` or
`Except String`, and Go runtime panics as an explicit `Except GoPanic` layer.
-/

namespace Langchat

/-! ### Agent lifecycle state machine (package agent) -/
/-- AgentState mirrors the Go enumeration of agent lifecycle states. -/
inductive AgentState where
  | uninitialized
  | initializing
  | ready
  | running
  | paused
  | stopping
  | stopped
  | error
  deriving DecidableEq, BEq, Repr, Fintype

/-- The validTransitions map from isValidTransition in the source. -/
def validTransitions : AgentState → List AgentState
  | .uninitialized => [.initializing, .stopped]
  | .initializing => [.ready, .error, .stopped]
  | .ready => [.running, .stopping, .error]
  | .running => [.ready, .paused, .stopping, .error]
  | .paused => [.running, .stopping, .error]
  | .stopping => [.stopped, .error]
  | .stopped => [.initializing]
  | .error => [.initializing, .stopped]

/-- isValidTransition from the source: the map row exists for every state and
the target must appear in it. -/
def isValidTransition (f t : AgentState) : Bool :=
  (validTransitions f).contains t

/-- LifecycleEvent from the source; the Go error field is an optional string. -/
structure LifecycleEvent where
  timestamp : Nat
  eventType : String
  state : AgentState
  message : String
  errMsg : Option String
  deriving DecidableEq, Repr

/-- Observable state of an AgentLifecycleManager: the state field, the
lastActivity timestamp, the buffered event channel contents, and whether the
event channel has been closed. -/
structure LifecycleManager where
  state : AgentState
  lastActivity : Nat
  eventChan : List LifecycleEvent
  eventChanClosed : Bool
  deriving DecidableEq, Repr

/-- Go runtime faults that the embedding makes explicit. -/
inductive GoPanic where
  | sendOnClosedChannel
  deriving DecidableEq, Repr

/-- Capacity of the event channel in the source. -/
def eventChanCap : Nat := 100

/-- The select statement of SetState: a send case with a default case.
A send on a closed channel panics; otherwise the event is enqueued when the
buffer has room and silently dropped when it is full. -/
def trySendEvent (lm : LifecycleManager) (ev : LifecycleEvent) :
    Except GoPanic LifecycleManager :=
  if lm.eventChanClosed then .error .sendOnClosedChannel
  else if lm.eventChan.length < eventChanCap then
    .ok { lm with eventChan := lm.eventChan ++ [ev] }
  else .ok lm

/-- SetState from the source.  The source assigns the state and lastActivity
fields first and validates the transition afterwards, returning the
invalid-transition error without undoing the assignment; on a valid
transition it emits a state_change event through the select above.  The
returned option is the Go error return value. -/
def setState (lm : LifecycleManager) (state : AgentState) (message : String)
    (err : Option String) (now : Nat) :
    Except GoPanic (LifecycleManager × Option String) :=
  if !isValidTransition lm.state state then
    .ok ({ lm with state := state, lastActivity := now },
      some "invalid state transition")
  else
    match trySendEvent { lm with state := state, lastActivity := now }
        ⟨now, "state_change", state, message, err⟩ with
    | .error p => .error p
    | .ok lm2 => .ok (lm2, none)

/-- Stop from the source: SetState(Stopping), cancel the context, close the
event channel, then SetState(Stopped).  Both SetState error returns are
discarded, exactly as in the source. -/
def stop (lm : LifecycleManager) (now : Nat) : Except GoPanic LifecycleManager :=
  match setState lm .stopping "Lifecycle manager stopping" none now with
  | .error p => .error p
  | .ok (lm1, _) =>
    match setState { lm1 with eventChanClosed := true }
        .stopped "Lifecycle manager stopped" none now with
    | .error p => .error p
    | .ok (lm3, _) => .ok lm3

/-- checkIdleTimeout from the source, run on every idle-monitor tick.  The
boolean result records whether the monitor requested a transition to
Stopping on this tick. -/
def checkIdleTimeout (lm : LifecycleManager) (maxIdleTime now : Nat) :
    Except GoPanic (LifecycleManager × Bool) :=
  if lm.state = .running ∨ lm.state = .ready then
    if maxIdleTime < now - lm.lastActivity then
      match setState lm .stopping "Agent idle, stopping" none now with
      | .error p => .error p
      | .ok (lm1, _) => .ok (lm1, true)
    else .ok (lm, false)
  else .ok (lm, false)

/-- The adjacency table exactly as enumerated by the claim wording (a second
definition written from the specification, to be compared with the table
translated from the code). -/
def specEdge (f t : AgentState) : Bool :=
  match f, t with
  | .uninitialized, .initializing => true
  | .uninitialized, .stopped => true
  | .initializing, .ready => true
  | .initializing, .error => true
  | .initializing, .stopped => true
  | .ready, .running => true
  | .ready, .stopping => true
  | .ready, .error => true
  | .running, .ready => true
  | .running, .paused => true
  | .running, .stopping => true
  | .running, .error => true
  | .paused, .running => true
  | .paused, .stopping => true
  | .paused, .error => true
  | .stopping, .stopped => true
  | .stopping, .error => true
  | .stopped, .initializing => true
  | .error, .initializing => true
  | .error, .stopped => true
  | _, _ => false

/-! ### Admission semaphore (acquireRequest / releaseRequest) -/
/-- The requestSem buffered channel of the server, as its current occupancy
together with its fixed capacity maxConcurrent. -/
structure Semaphore where
  count : Nat
  maxConcurrent : Nat
  deriving DecidableEq, Repr

/-- The busy error text of acquireRequest. -/
def busyError : String := "server is busy: maximum concurrent requests exceeded"

/-- acquireRequest from the source: a select with a send case and a default
case, so it never blocks; when the buffer is full it immediately returns the
busy error and leaves the semaphore untouched. -/
def acquireRequest (s : Semaphore) : Semaphore × Option String :=
  if s.count < s.maxConcurrent then ({ s with count := s.count + 1 }, none)
  else (s, some busyError)

/-- releaseRequest from the source: a select with a receive case and a
default case; releasing an empty semaphore only logs a warning. -/
def releaseRequest (s : Semaphore) : Semaphore :=
  if 0 < s.count then { s with count := s.count - 1 } else s

/-- One operation of an acquire/release interleaving. -/
inductive SemOp where
  | acquire
  | release
  deriving DecidableEq, Repr

/-- Effect of one operation on the semaphore. -/
def semStep (s : Semaphore) : SemOp → Semaphore
  | .acquire => (acquireRequest s).1
  | .release => releaseRequest s

/-- Run an arbitrary interleaving of acquire and release operations. -/
def runSemOps (s : Semaphore) (ops : List SemOp) : Semaphore :=
  ops.foldl semStep s

/-- Run n simultaneous acquire attempts; the second component counts the
admitted ones. -/
def runAcquires (s : Semaphore) : Nat → Semaphore × Nat
  | 0 => (s, 0)
  | n + 1 =>
    match acquireRequest s with
    | (s1, none) => ((runAcquires s1 n).1, (runAcquires s1 n).2 + 1)
    | (s1, some _) => runAcquires s1 n

/-! ### Session manager (package session) -/
/-- Message from the source. -/
structure Message where
  id : String
  role : String
  content : String
  timestamp : Nat
  feedback : String
  deriving DecidableEq, Repr

/-- The history-trimming append performed by AddMessage: append the new
message, then when maxHistory is positive and the list has grown beyond it,
keep only the most recent maxHistory entries. -/
def appendWithCap (msgs : List Message) (m : Message) (maxHistory : Nat) :
    List Message :=
  if 0 < maxHistory ∧ maxHistory < (msgs ++ [m]).length then
    (msgs ++ [m]).drop ((msgs ++ [m]).length - maxHistory)
  else msgs ++ [m]

/-- The session map of a SessionManager: session id to stored messages, with
the maxHistory configuration. -/
structure SessionManager where
  sessions : List (String × List Message)
  maxHistory : Nat
  deriving DecidableEq, Repr

/-- GetSession from the source, over the in-memory map. -/
def getSession? (sm : SessionManager) (sid : String) : Option (List Message) :=
  (sm.sessions.find? (fun p => p.1 == sid)).map (fun p => p.2)

/-- Replace the stored message list of one session. -/
def setSession (sm : SessionManager) (sid : String) (msgs : List Message) :
    SessionManager :=
  { sm with sessions :=
      sm.sessions.map (fun p => if p.1 == sid then (p.1, msgs) else p) }

/-- AddMessage from the source: look up the session, append the message with
a fresh id and the current timestamp, apply the history cap, and store.  The
returned string is the message id, empty when the session is unknown. -/
def addMessage (sm : SessionManager) (sid role content msgId : String)
    (now : Nat) : SessionManager × String × Option String :=
  match getSession? sm sid with
  | none => (sm, "", some "session file not found")
  | some msgs =>
    (setSession sm sid
        (appendWithCap msgs ⟨msgId, role, content, now, ""⟩ sm.maxHistory),
      msgId, none)

/-- Sample messages used by concrete witnesses. -/
def msgA : Message := ⟨"a", "user", "x", 0, ""⟩

/-- Sample messages used by concrete witnesses. -/
def msgB : Message := ⟨"b", "assistant", "y", 1, ""⟩

/-- Sample messages used by concrete witnesses. -/
def msgC : Message := ⟨"c", "user", "z", 2, ""⟩

/-! ### Conversational agent and tool routing (package chat) -/
/-- A catalog tool, identified by its name.  What a call to the tool returns
is an oracle input of the request. -/
structure Tool where
  name : String
  deriving DecidableEq, Repr

/-- ASCII lowercasing of one character. -/
def lowerChar (c : Char) : Char :=
  if 65 ≤ c.toNat ∧ c.toNat ≤ 90 then Char.ofNat (c.toNat + 32) else c

/-- Name comparison used by the source when matching skill and tool names
(strings.EqualFold, modeled as comparison after lowercasing). -/
def eqFold (a b : String) : Bool :=
  a.data.map lowerChar == b.data.map lowerChar

/-- A skill catalog entry together with the outcome of materializing its
tools (the conversion of a skill package to tools can fail). -/
structure SkillInfo where
  name : String
  loadResult : Except String (List Tool)
  deriving Repr

/-- Decoded form of a skill-selection reply of the model, after code-fence
stripping: the JSON either fails to parse, declines, or names a skill. -/
inductive SkillDecision where
  | parseFail
  | noSkill
  | useSkill (name : String)
  deriving DecidableEq, Repr

/-- Decoded form of a tool-selection reply of the model, after code-fence
stripping: the JSON either fails to parse, declines, or names a tool with
its arguments. -/
inductive ToolDecision where
  | parseFail
  | noTool
  | useTool (name : String) (args : String)
  deriving DecidableEq, Repr

/-- selectSkillForTask from the source: an empty catalog yields no skill; a
model failure or a reply that fails JSON parsing is returned as an error;
otherwise the selected name, or the empty string for a declination. -/
def selectSkillForTask (skills : List SkillInfo)
    (reply : Except String SkillDecision) : Except String String :=
  if skills.isEmpty then .ok ""
  else
    match reply with
    | .error e => .error e
    | .ok .parseFail => .error "failed to parse skill decision"
    | .ok .noSkill => .ok ""
    | .ok (.useSkill n) => .ok n

/-- loadSkillTools from the source: find the skill by case-insensitive name
and materialize (or return the cached) tools; an unknown name is an error. -/
def loadSkillTools (skills : List SkillInfo) (skillName : String) :
    Except String (List Tool) :=
  match skills.find? (fun s => eqFold s.name skillName) with
  | some s => s.loadResult
  | none => .error "skill not found"

/-- selectToolForTask from the source: an empty tool set yields no tool; a
model failure or a parse failure is an error; a declination yields no tool;
a named tool is looked up case-insensitively and an unknown name is an
error. -/
def selectToolForTask (availableTools : List Tool)
    (reply : Except String ToolDecision) :
    Except String (Option (Tool × String)) :=
  if availableTools.isEmpty then .ok none
  else
    match reply with
    | .error e => .error e
    | .ok .parseFail => .error "failed to parse tool decision"
    | .ok .noTool => .ok none
    | .ok (.useTool n args) =>
      match availableTools.find? (fun t => eqFold t.name n) with
      | some t => .ok (some (t, args))
      | none => .error "tool not found in available tools"

/-- One message of the agent conversation history. -/
structure ChatMsg where
  role : String
  content : String
  deriving DecidableEq, Repr

/-- A SimpleChatAgent: its history, its skill catalog, its MCP tool set, and
the toolsEnabled flag. -/
structure Agent where
  messages : List ChatMsg
  skills : List SkillInfo
  mcpTools : List Tool
  toolsEnabled : Bool
  selectedSkill : String
  deriving Repr

/-- Oracle inputs of one chat request: the decoded replies of the routing
model calls, the outcomes of tool execution, and the final model call with
its streamed tokens and final text. -/
structure ChatOracle where
  skillReply : Except String SkillDecision
  skillToolReply : Except String ToolDecision
  skillToolCall : Except String String
  mcpToolReply : Except String ToolDecision
  mcpToolCall : Except String String
  llmTokens : List String
  llmFinal : Except String String
  deriving Repr

/-- The two routing stages. -/
inductive ToolStage where
  | skill
  | mcp
  deriving DecidableEq, Repr

/-- One tool execution: which tool ran, in which stage, and whether its Call
returned without error. -/
structure ToolInvocation where
  name : String
  stage : ToolStage
  ok : Bool
  deriving DecidableEq, Repr

/-- Streaming notice emitted immediately before a tool call. -/
def notifyStart (toolName : String) : String :=
  "\n\n> 🛠️ Calling tool **" ++ toolName ++ "**...\n\n"

/-- Streaming notice emitted after a failed tool call. -/
def notifyError (e : String) : String :=
  "\n\n> ❌ Tool error: " ++ e ++ "\n\n"

/-- Collapsible result block emitted after a successful tool call. -/
def notifyResult (toolName result : String) : String :=
  "\n\n<details>\n<summary>Tool Result: " ++ toolName ++ "</summary>\n\n```\n" ++
    result ++ "\n```\n\n</details>\n\n"

/-- The system message summarizing a tool result for the final model call
(quoting punctuation of the original format string omitted). -/
def toolResultMessage (toolName result : String) : String :=
  "I used the " ++ toolName ++ " tool to help with your request. Here is the result:\n\n" ++
    result

/-- Result of one routing stage: whether a tool was used, its result and
name, the tool executions that happened, and the notice strings that
ChatStream writes both to the caller sink and to its response builder (Chat
computes the same stage result but emits no notices). -/
structure ToolPhase where
  toolUsed : Bool
  toolResult : String
  toolName : String
  invocations : List ToolInvocation
  chunks : List String
  deriving Repr

/-- The stage result when no tool was selected or the stage did not run. -/
def ToolPhase.empty : ToolPhase :=
  { toolUsed := false, toolResult := "", toolName := "", invocations := [],
    chunks := [] }

/-- Stage 1 of Chat and ChatStream: select a skill, materialize its tools,
select a tool from them, call it.  Selection errors, load errors and a tool
call error are logged and leave toolUsed false, exactly as in the source. -/
def skillPhase (skills : List SkillInfo) (o : ChatOracle) : ToolPhase :=
  match selectSkillForTask skills o.skillReply with
  | .error _ => ToolPhase.empty
  | .ok sel =>
    if sel = "" then ToolPhase.empty
    else
    match loadSkillTools skills sel with
    | .error _ => ToolPhase.empty
    | .ok skillTools =>
      match selectToolForTask skillTools o.skillToolReply with
      | .error _ => ToolPhase.empty
      | .ok none => ToolPhase.empty
      | .ok (some (t, _args)) =>
        match o.skillToolCall with
        | .error e =>
          { toolUsed := false, toolResult := "", toolName := t.name,
            invocations := [⟨t.name, .skill, false⟩],
            chunks := [notifyStart t.name, notifyError e] }
        | .ok result =>
          { toolUsed := true, toolResult := result, toolName := t.name,
            invocations := [⟨t.name, .skill, true⟩],
            chunks := [notifyStart t.name, notifyResult t.name result] }

/-- Stage 2 of Chat and ChatStream: single-stage tool selection over the MCP
tool set, with the same error containment as stage 1. -/
def mcpPhase (mcpTools : List Tool) (o : ChatOracle) : ToolPhase :=
  match selectToolForTask mcpTools o.mcpToolReply with
  | .error _ => ToolPhase.empty
  | .ok none => ToolPhase.empty
  | .ok (some (t, _args)) =>
    match o.mcpToolCall with
    | .error e =>
      { toolUsed := false, toolResult := "", toolName := t.name,
        invocations := [⟨t.name, .mcp, false⟩],
        chunks := [notifyStart t.name, notifyError e] }
    | .ok result =>
      { toolUsed := true, toolResult := result, toolName := t.name,
        invocations := [⟨t.name, .mcp, true⟩],
        chunks := [notifyStart t.name, notifyResult t.name result] }

/-- The guard of stage 1: toolsEnabled, the caller enables skills, and the
skill catalog is not empty. -/
def phase1 (a : Agent) (enableSkills : Bool) (o : ChatOracle) : ToolPhase :=
  if a.toolsEnabled = true ∧ enableSkills = true ∧ ¬a.skills.isEmpty then
    skillPhase a.skills o
  else ToolPhase.empty

/-- The guard of stage 2: toolsEnabled, no tool used by stage 1, the caller
enables MCP, and the MCP tool set is not empty. -/
def phase2 (a : Agent) (enableMCP : Bool) (p1 : ToolPhase) (o : ChatOracle) :
    ToolPhase :=
  if a.toolsEnabled = true ∧ p1.toolUsed = false ∧ enableMCP = true ∧
      ¬a.mcpTools.isEmpty then
    mcpPhase a.mcpTools o
  else ToolPhase.empty

/-- Concatenation of a list of strings, in order. -/
def concatAll (l : List String) : String :=
  l.foldr (fun a b => a ++ b) ""

/-- Chat from the source: append the user message; run the skill stage, then
the MCP stage only when no tool has been used; append the tool-result system
message when a tool was used with a nonempty result; call the model over the
full history; on success append the assistant message.  Returns the updated
agent, the Go result, and the log of tool executions. -/
def chat (a : Agent) (message : String) (enableSkills enableMCP : Bool)
    (o : ChatOracle) : Agent × Except String String × List ToolInvocation :=
  let a1 := { a with messages := a.messages ++ [⟨"human", message⟩] }
  let p1 := phase1 a1 enableSkills o
  let p2 := phase2 a1 enableMCP p1 o
  let toolUsed := p1.toolUsed || p2.toolUsed
  let toolResult := if p1.toolUsed then p1.toolResult else p2.toolResult
  let toolName := if p1.toolUsed then p1.toolName else p2.toolName
  let a2 :=
    if toolUsed = true ∧ toolResult ≠ "" then
      { a1 with messages :=
          a1.messages ++ [⟨"system", toolResultMessage toolName toolResult⟩] }
    else a1
  match o.llmFinal with
  | .error e =>
    (a2, .error ("LLM call failed: " ++ e), p1.invocations ++ p2.invocations)
  | .ok text =>
    ({ a2 with messages := a2.messages ++ [⟨"ai", text⟩] }, .ok text,
      p1.invocations ++ p2.invocations)

/-- ChatStream from the source: the same routing as Chat, but each stage
also writes its notices both to the caller sink and to the response builder;
the final model call streams its tokens to the sink; the builder content,
which is the concatenation of the notice chunks followed by the final model
text, is returned and appended as the assistant message.  The third
component is the full list of sink chunks. -/
def chatStream (a : Agent) (message : String) (enableSkills enableMCP : Bool)
    (o : ChatOracle) :
    Agent × Except String String × List String × List ToolInvocation :=
  let a1 := { a with messages := a.messages ++ [⟨"human", message⟩] }
  let p1 := phase1 a1 enableSkills o
  let p2 := phase2 a1 enableMCP p1 o
  let toolUsed := p1.toolUsed || p2.toolUsed
  let toolResult := if p1.toolUsed then p1.toolResult else p2.toolResult
  let toolName := if p1.toolUsed then p1.toolName else p2.toolName
  let a2 :=
    if toolUsed = true ∧ toolResult ≠ "" then
      { a1 with messages :=
          a1.messages ++ [⟨"system", toolResultMessage toolName toolResult⟩] }
    else a1
  match o.llmFinal with
  | .error e =>
    (a2, .error ("LLM call failed: " ++ e),
      (p1.chunks ++ p2.chunks) ++ o.llmTokens, p1.invocations ++ p2.invocations)
  | .ok text =>
    ({ a2 with messages :=
        a2.messages ++ [⟨"ai", concatAll (p1.chunks ++ p2.chunks) ++ text⟩] },
      .ok (concatAll (p1.chunks ++ p2.chunks) ++ text),
      (p1.chunks ++ p2.chunks) ++ o.llmTokens, p1.invocations ++ p2.invocations)

/-! ### HTTP chat handlers (package chat, server side) -/
/-- Events of the streaming delivery protocol. -/
inductive SSEEvent where
  | start
  | chunk (text : String)
  | errEvent (msg : String)
  | endEvent (message : String) (messageId : String)
  deriving DecidableEq, Repr

/-- HandleChatStream from the source: emit the start event, run ChatStream
forwarding every sink chunk as a chunk event; on failure emit a terminal
error event; on success persist the full response as an assistant message
of the session and emit the end event carrying that same full response and
the new message id. -/
def handleChatStream (sm : SessionManager) (a : Agent)
    (sessionID message : String) (enableSkills enableMCP : Bool)
    (o : ChatOracle) (msgId : String) (now : Nat) :
    SessionManager × Agent × List SSEEvent :=
  match chatStream a message enableSkills enableMCP o with
  | (a1, .error e, chunks, _) =>
    (sm, a1, [SSEEvent.start] ++ chunks.map SSEEvent.chunk ++
      [SSEEvent.errEvent e])
  | (a1, .ok response, chunks, _) =>
    match addMessage sm sessionID "assistant" response msgId now with
    | (sm1, mid, _) =>
      (sm1, a1, [SSEEvent.start] ++ chunks.map SSEEvent.chunk ++
        [SSEEvent.endEvent response mid])

/-- A chat request body. -/
structure ChatRequest where
  sessionID : String
  message : String
  enableSkills : Bool
  enableMCP : Bool
  stream : Bool
  deriving Repr

/-- Observable server state of a chat request: the admission semaphore and
the session manager. -/
structure ServerState where
  sem : Semaphore
  sm : SessionManager
  deriving Repr

/-- Outcome of HandleChat. -/
inductive ChatOutcome where
  | busy
  | badRequest
  | sessionNotFound
  | chatFailed (e : String)
  | okResponse (response : String) (messageId : String)
  | streamed (events : List SSEEvent)
  deriving DecidableEq, Repr

/-- HandleChat from the source: acquire an admission slot (immediate busy
rejection when all slots are held), validate the request body, look up the
session, append the user message, then delegate to the streaming or
non-streaming path; the deferred releaseRequest runs on every exit path
after a successful acquire. -/
def handleChat (st : ServerState) (req : ChatRequest) (a : Agent)
    (o : ChatOracle) (userMsgId asstMsgId : String) (now : Nat) :
    ServerState × Agent × ChatOutcome :=
  match acquireRequest st.sem with
  | (_, some _) => (st, a, .busy)
  | (sem1, none) =>
    if req.sessionID = "" ∨ req.message = "" then
      ({ sem := releaseRequest sem1, sm := st.sm }, a, .badRequest)
    else
      match getSession? st.sm req.sessionID with
      | none => ({ sem := releaseRequest sem1, sm := st.sm }, a, .sessionNotFound)
      | some _ =>
        match addMessage st.sm req.sessionID "user" req.message userMsgId now with
        | (sm1, _, _) =>
          if req.stream then
            match handleChatStream sm1 a req.sessionID req.message
                req.enableSkills req.enableMCP o asstMsgId now with
            | (sm2, a1, events) =>
              ({ sem := releaseRequest sem1, sm := sm2 }, a1, .streamed events)
          else
            match chat a req.message req.enableSkills req.enableMCP o with
            | (a1, .error e, _) =>
              ({ sem := releaseRequest sem1, sm := sm1 }, a1, .chatFailed e)
            | (a1, .ok response, _) =>
              match addMessage sm1 req.sessionID "assistant" response asstMsgId now with
              | (sm2, mid, _) =>
                ({ sem := releaseRequest sem1, sm := sm2 }, a1,
                  .okResponse response mid)

/-- The user-message update of Chat and ChatStream. -/
def withUserMessage (a : Agent) (message : String) : Agent :=
  { a with messages := a.messages ++ [⟨"human", message⟩] }

/-- Concrete agent used by witnesses of the routing claims. -/
def agentW : Agent :=
  ⟨[⟨"system", "You are a helpful AI assistant."⟩],
    [⟨"weather", .ok [⟨"forecast"⟩]⟩], [⟨"search"⟩], true, ""⟩

/-- Oracle where the skill-stage tool call fails and the MCP-stage tool call
succeeds. -/
def oracleW : ChatOracle :=
  ⟨.ok (.useSkill "weather"), .ok (.useTool "forecast" "x"), .error "boom",
    .ok (.useTool "search" "q"), .ok "res", ["an", "swer"], .ok "answer"⟩

/-- A skill-selection reply that fails JSON parsing or names a skill absent
from the catalog. -/
def badSkillReply (skills : List SkillInfo)
    (reply : Except String SkillDecision) : Prop :=
  reply = .ok .parseFail ∨
    ∃ n, reply = .ok (.useSkill n) ∧
      skills.find? (fun s => eqFold s.name n) = none

/-- A tool-selection reply that fails JSON parsing or names a tool absent
from the given tool set. -/
def badToolReply (availableTools : List Tool)
    (reply : Except String ToolDecision) : Prop :=
  reply = .ok .parseFail ∨
    ∃ n args, reply = .ok (.useTool n args) ∧
      availableTools.find? (fun t => eqFold t.name n) = none

/-- Some routing reply of the skill stage fails JSON parsing or names an
item absent from its catalog: either the skill-selection reply itself is
bad, or it selects a skill whose tools materialize and the subsequent
tool-selection reply is bad over that tool set. -/
def skillStageBad (skills : List SkillInfo) (o : ChatOracle) : Prop :=
  badSkillReply skills o.skillReply ∨
    ∃ sel ts, selectSkillForTask skills o.skillReply = .ok sel ∧
      loadSkillTools skills sel = .ok ts ∧
      badToolReply ts o.skillToolReply

/-- Concrete agent for the routing counterexample: one skill (weather, with
a forecast tool) and one MCP tool (search), tools enabled. -/
def agentCE : Agent :=
  ⟨[], [⟨"weather", .ok [⟨"forecast"⟩]⟩], [⟨"search"⟩], true, ""⟩

/-- Oracle where the skill-selection reply names a skill that is not in the
catalog while the MCP tool-selection reply names a valid tool whose call
succeeds. -/
def oracleCE : ChatOracle :=
  ⟨.ok (.useSkill "ghost"), .ok .noTool, .error "e",
    .ok (.useTool "search" "q"), .ok "res", [], .ok "ans"⟩

/-- Oracle where the skill-selection reply names a valid skill but the
skill-stage tool-selection reply and the MCP tool-selection reply both fail
JSON parsing. -/
def oracleBadTool : ChatOracle :=
  ⟨.ok (.useSkill "weather"), .ok .parseFail, .error "e", .ok .parseFail,
    .error "e", [], .ok "ans"⟩

/-- The payload of a chunk event. -/
def chunkText? : SSEEvent → Option String
  | .chunk t => some t
  | _ => none

/-! ### Theorems -/

theorem isValidTransition_eq_specEdge :
    ∀ f t, isValidTransition f t = specEdge f t := by decide

/-- With an open event channel, SetState never panics. -/
theorem setState_no_panic (lm : LifecycleManager) (t : AgentState)
    (message : String) (err : Option String) (now : Nat)
    (hopen : lm.eventChanClosed = false) :
    ∃ lm1 e, setState lm t message err now = .ok (lm1, e) := by
  by_cases hv : isValidTransition lm.state t <;>
    by_cases hlen : lm.eventChan.length < eventChanCap <;>
      simp [setState, trySendEvent, hv, hlen, hopen]

/-- A SetState that reports no error is exactly one on a valid transition. -/
theorem setState_ok_none_iff (lm : LifecycleManager) (t : AgentState)
    (message : String) (err : Option String) (now : Nat)
    (hopen : lm.eventChanClosed = false) :
    (∃ lm1, setState lm t message err now = .ok (lm1, none)) ↔
      isValidTransition lm.state t = true := by
  by_cases hv : isValidTransition lm.state t <;>
    by_cases hlen : lm.eventChan.length < eventChanCap <;>
      simp [setState, trySendEvent, hv, hlen, hopen]

/-- C4: for every current state and every target, SetState reports success
(no error) exactly when the pair is an edge of the adjacency table as
enumerated in the specification, as long as the event channel is open. -/
theorem setState_success_iff_specEdge (lm : LifecycleManager) (t : AgentState)
    (message : String) (err : Option String) (now : Nat)
    (hopen : lm.eventChanClosed = false) :
    (∃ lm1, setState lm t message err now = .ok (lm1, none)) ↔
      specEdge lm.state t = true := by
  rw [setState_ok_none_iff lm t message err now hopen,
    isValidTransition_eq_specEdge]

theorem setState_success_iff_specEdge_witness :
    (∃ lm1, setState ⟨.uninitialized, 0, [], false⟩ .initializing "Server starting" none 1 =
      .ok (lm1, none)) ↔ specEdge .uninitialized .initializing = true :=
  setState_success_iff_specEdge ⟨.uninitialized, 0, [], false⟩ .initializing
    "Server starting" none 1 rfl

/-- C1 (refutation of the claimed frame condition): from Uninitialized, a
SetState(Running) request is invalid, and the call does return the
invalid-transition error, but the manager state has been mutated to Running
and lastActivity has been stamped with the current time, because the source
assigns both fields before validating the transition. -/
theorem setState_invalid_mutates :
    setState ⟨.uninitialized, 0, [], false⟩ .running "" none 5 =
      .ok (⟨.running, 5, [], false⟩, some "invalid state transition") ∧
    isValidTransition .uninitialized .running = false :=
  ⟨rfl, rfl⟩

/-- C9 (refutation of safe termination): for every manager whose event
channel is still open, Stop reaches the second SetState with the channel
closed, and the select send on the closed channel panics; Stop never
terminates normally. -/
theorem stop_panics (lm : LifecycleManager) (now : Nat)
    (hopen : lm.eventChanClosed = false) :
    stop lm now = .error .sendOnClosedChannel := by
  have h2 : isValidTransition AgentState.stopping .stopped = true := rfl
  by_cases hv : isValidTransition lm.state .stopping <;>
    by_cases hlen : lm.eventChan.length < eventChanCap <;>
      simp [stop, setState, trySendEvent, hv, hlen, hopen, h2]

theorem stop_panics_witness :
    stop ⟨.running, 0, [], false⟩ 0 = .error .sendOnClosedChannel :=
  stop_panics ⟨.running, 0, [], false⟩ 0 rfl

/-- C7: on an idle-monitor tick, a transition to Stopping is requested
exactly when the state is Running or Ready and the idle time strictly
exceeds MaxIdleTime; in every other case the tick requests nothing. -/
theorem checkIdleTimeout_requests_iff (lm : LifecycleManager)
    (maxIdleTime now : Nat) (hopen : lm.eventChanClosed = false) :
    (∃ lm1, checkIdleTimeout lm maxIdleTime now = .ok (lm1, true)) ↔
      ((lm.state = .running ∨ lm.state = .ready) ∧
        maxIdleTime < now - lm.lastActivity) := by
  unfold checkIdleTimeout
  by_cases hs : lm.state = .running ∨ lm.state = .ready
  · rw [if_pos hs]
    by_cases ht : maxIdleTime < now - lm.lastActivity
    · rw [if_pos ht]
      obtain ⟨lm1, e, h⟩ :=
        setState_no_panic lm .stopping "Agent idle, stopping" none now hopen
      rw [h]
      exact ⟨fun _ => ⟨hs, ht⟩, fun _ => ⟨lm1, rfl⟩⟩
    · rw [if_neg ht]
      constructor
      · rintro ⟨lm1, h⟩
        simp at h
      · rintro ⟨-, h⟩
        exact absurd h ht
  · rw [if_neg hs]
    constructor
    · rintro ⟨lm1, h⟩
      simp at h
    · rintro ⟨h, -⟩
      exact absurd h hs

theorem checkIdleTimeout_requests_iff_witness :
    (∃ lm1, checkIdleTimeout ⟨.running, 0, [], false⟩ 10 11 = .ok (lm1, true)) ↔
      ((AgentState.running = .running ∨ AgentState.running = .ready) ∧ 10 < 11 - 0) :=
  checkIdleTimeout_requests_iff ⟨.running, 0, [], false⟩ 10 11 rfl

theorem semStep_maxConcurrent (s : Semaphore) (op : SemOp) :
    (semStep s op).maxConcurrent = s.maxConcurrent := by
  cases op <;> simp [semStep, acquireRequest, releaseRequest] <;> split <;> rfl

theorem semStep_count_le (s : Semaphore) (op : SemOp)
    (h : s.count ≤ s.maxConcurrent) :
    (semStep s op).count ≤ (semStep s op).maxConcurrent := by
  obtain ⟨c, cap⟩ := s
  simp only at h
  cases op <;> simp only [semStep, acquireRequest, releaseRequest] <;> split <;>
    simp_all <;> omega

theorem runSemOps_count_le (ops : List SemOp) (s : Semaphore)
    (h : s.count ≤ s.maxConcurrent) :
    (runSemOps s ops).count ≤ (runSemOps s ops).maxConcurrent := by
  induction ops generalizing s with
  | nil => exact h
  | cons op ops ih => exact ih (semStep s op) (semStep_count_le s op h)

theorem runSemOps_maxConcurrent (ops : List SemOp) (s : Semaphore) :
    (runSemOps s ops).maxConcurrent = s.maxConcurrent := by
  induction ops generalizing s with
  | nil => rfl
  | cons op ops ih => rw [runSemOps, List.foldl_cons, ← runSemOps, ih,
      semStep_maxConcurrent]

theorem runAcquires_admitted (n : Nat) (s : Semaphore)
    (h : s.count ≤ s.maxConcurrent) :
    (runAcquires s n).2 = min n (s.maxConcurrent - s.count) := by
  induction n generalizing s with
  | zero => simp [runAcquires]
  | succ n ih =>
    by_cases hc : s.count < s.maxConcurrent
    · rw [runAcquires]
      simp only [acquireRequest, if_pos hc]
      rw [ih { s with count := s.count + 1 } hc]
      simp only
      omega
    · rw [runAcquires]
      simp only [acquireRequest, if_neg hc]
      rw [ih s h]
      omega

/-- C3: the admission semaphore never exceeds maxConcurrent over any
interleaving of acquire and release operations; an acquire against a full
semaphore fails immediately with the busy error and changes nothing; and n
simultaneous acquire attempts against an idle server admit exactly
min n maxConcurrent. -/
theorem admission_control (cap : Nat) :
    (∀ ops : List SemOp, (runSemOps ⟨0, cap⟩ ops).count ≤ cap) ∧
    acquireRequest ⟨cap, cap⟩ = (⟨cap, cap⟩, some busyError) ∧
    (∀ n : Nat, (runAcquires ⟨0, cap⟩ n).2 = min n cap) := by
  refine ⟨fun ops => ?_, ?_, fun n => ?_⟩
  · have h1 := runSemOps_count_le ops ⟨0, cap⟩ (Nat.zero_le cap)
    have h2 := runSemOps_maxConcurrent ops ⟨0, cap⟩
    rw [h2] at h1
    exact h1
  · simp [acquireRequest]
  · rw [runAcquires_admitted n ⟨0, cap⟩ (Nat.zero_le cap)]
    rfl

/-- C10: with a positive maxHistory, every append leaves at most maxHistory
stored messages, and the stored list is exactly the most recent suffix of
the appended sequence (oldest entries silently discarded). -/
theorem appendWithCap_bound (msgs : List Message) (m : Message)
    (maxHistory : Nat) (h : 0 < maxHistory) :
    (appendWithCap msgs m maxHistory).length ≤ maxHistory ∧
    appendWithCap msgs m maxHistory =
      (msgs ++ [m]).drop ((msgs ++ [m]).length - maxHistory) := by
  by_cases hlen : maxHistory < (msgs ++ [m]).length
  · unfold appendWithCap
    rw [if_pos ⟨h, hlen⟩]
    refine ⟨?_, rfl⟩
    rw [List.length_drop]
    omega
  · unfold appendWithCap
    rw [if_neg (by tauto)]
    constructor
    · simp at hlen ⊢
      omega
    · have : (msgs ++ [m]).length - maxHistory = 0 := by omega
      rw [this, List.drop_zero]

theorem appendWithCap_bound_witness :
    (appendWithCap [msgA, msgB] msgC 2).length ≤ 2 ∧
    appendWithCap [msgA, msgB] msgC 2 =
      ([msgA, msgB] ++ [msgC]).drop (([msgA, msgB] ++ [msgC]).length - 2) :=
  appendWithCap_bound [msgA, msgB] msgC 2 (by decide)

/-- The newest message always survives the history cap. -/
theorem appendWithCap_getLast (msgs : List Message) (m : Message)
    (maxHistory : Nat) :
    (appendWithCap msgs m maxHistory).getLast? = some m := by
  unfold appendWithCap
  split
  · next hc =>
    rw [List.drop_append_of_le_length (by simp; omega), List.getLast?_append]
    rfl
  · rw [List.getLast?_append]
    rfl

/-- A skill stage performs at most one tool execution, tagged with its own
stage, and reports toolUsed exactly when that execution succeeded. -/
theorem skillPhase_spec (skills : List SkillInfo) (o : ChatOracle) :
    ((skillPhase skills o).invocations = [] ∧
      (skillPhase skills o).toolUsed = false) ∨
    (∃ nm, (skillPhase skills o).invocations = [⟨nm, .skill, false⟩] ∧
      (skillPhase skills o).toolUsed = false) ∨
    (∃ nm, (skillPhase skills o).invocations = [⟨nm, .skill, true⟩] ∧
      (skillPhase skills o).toolUsed = true) := by
  unfold skillPhase
  repeat' split
  all_goals simp [ToolPhase.empty]

/-- An MCP stage performs at most one tool execution, tagged with its own
stage, and reports toolUsed exactly when that execution succeeded. -/
theorem mcpPhase_spec (mcpTools : List Tool) (o : ChatOracle) :
    ((mcpPhase mcpTools o).invocations = [] ∧
      (mcpPhase mcpTools o).toolUsed = false) ∨
    (∃ nm, (mcpPhase mcpTools o).invocations = [⟨nm, .mcp, false⟩] ∧
      (mcpPhase mcpTools o).toolUsed = false) ∨
    (∃ nm, (mcpPhase mcpTools o).invocations = [⟨nm, .mcp, true⟩] ∧
      (mcpPhase mcpTools o).toolUsed = true) := by
  unfold mcpPhase
  repeat' split
  all_goals simp [ToolPhase.empty]

theorem phase1_spec (a : Agent) (es : Bool) (o : ChatOracle) :
    ((phase1 a es o).invocations = [] ∧ (phase1 a es o).toolUsed = false) ∨
    (∃ nm, (phase1 a es o).invocations = [⟨nm, .skill, false⟩] ∧
      (phase1 a es o).toolUsed = false) ∨
    (∃ nm, (phase1 a es o).invocations = [⟨nm, .skill, true⟩] ∧
      (phase1 a es o).toolUsed = true) := by
  unfold phase1
  split
  · exact skillPhase_spec a.skills o
  · simp [ToolPhase.empty]

theorem phase2_spec (a : Agent) (em : Bool) (p1 : ToolPhase) (o : ChatOracle) :
    ((phase2 a em p1 o).invocations = [] ∧ (phase2 a em p1 o).toolUsed = false) ∨
    (∃ nm, (phase2 a em p1 o).invocations = [⟨nm, .mcp, false⟩] ∧
      (phase2 a em p1 o).toolUsed = false) ∨
    (∃ nm, (phase2 a em p1 o).invocations = [⟨nm, .mcp, true⟩] ∧
      (phase2 a em p1 o).toolUsed = true) := by
  unfold phase2
  split
  · exact mcpPhase_spec a.mcpTools o
  · simp [ToolPhase.empty]

/-- The MCP stage does not run when the skill stage used a tool. -/
theorem phase2_of_toolUsed (a : Agent) (em : Bool) (p1 : ToolPhase)
    (o : ChatOracle) (h : p1.toolUsed = true) :
    phase2 a em p1 o = ToolPhase.empty := by
  unfold phase2
  rw [if_neg]
  simp [h]

theorem chat_invocations (a : Agent) (message : String) (es em : Bool)
    (o : ChatOracle) :
    (chat a message es em o).2.2 =
      (phase1 (withUserMessage a message) es o).invocations ++
        (phase2 (withUserMessage a message) em
          (phase1 (withUserMessage a message) es o) o).invocations := by
  cases hf : o.llmFinal <;> simp [chat, hf, withUserMessage]

theorem chatStream_invocations (a : Agent) (message : String) (es em : Bool)
    (o : ChatOracle) :
    (chatStream a message es em o).2.2.2 =
      (phase1 (withUserMessage a message) es o).invocations ++
        (phase2 (withUserMessage a message) em
          (phase1 (withUserMessage a message) es o) o).invocations := by
  cases hf : o.llmFinal <;> simp [chatStream, hf, withUserMessage]

theorem invocation_discipline (a : Agent) (message : String) (es em : Bool)
    (o : ChatOracle) :
    ((((phase1 (withUserMessage a message) es o).invocations ++
        (phase2 (withUserMessage a message) em
          (phase1 (withUserMessage a message) es o) o).invocations).filter
      (fun i => i.ok)).length ≤ 1) ∧
    ((∃ i ∈ (phase1 (withUserMessage a message) es o).invocations ++
        (phase2 (withUserMessage a message) em
          (phase1 (withUserMessage a message) es o) o).invocations,
        i.stage = ToolStage.mcp) →
      ∀ j ∈ (phase1 (withUserMessage a message) es o).invocations ++
        (phase2 (withUserMessage a message) em
          (phase1 (withUserMessage a message) es o) o).invocations,
        j.stage = ToolStage.skill → j.ok = false) := by
  rcases phase1_spec (withUserMessage a message) es o with
      ⟨h1i, h1u⟩ | ⟨nm1, h1i, h1u⟩ | ⟨nm1, h1i, h1u⟩
  · rcases phase2_spec (withUserMessage a message) em
        (phase1 (withUserMessage a message) es o) o with
        ⟨h2i, -⟩ | ⟨nm2, h2i, -⟩ | ⟨nm2, h2i, -⟩ <;>
      simp [h1i, h2i]
  · rcases phase2_spec (withUserMessage a message) em
        (phase1 (withUserMessage a message) es o) o with
        ⟨h2i, -⟩ | ⟨nm2, h2i, -⟩ | ⟨nm2, h2i, -⟩ <;>
      simp [h1i, h2i]
  · rw [phase2_of_toolUsed _ em _ o h1u]
    simp [h1i, ToolPhase.empty]

theorem chat_result_ok (a : Agent) (message : String) (es em : Bool)
    (o : ChatOracle) :
    (chat a message es em o).2.1.isOk = o.llmFinal.isOk := by
  cases hf : o.llmFinal <;> simp [chat, hf, Except.isOk, Except.toBool]

theorem chatStream_result_ok (a : Agent) (message : String) (es em : Bool)
    (o : ChatOracle) :
    (chatStream a message es em o).2.1.isOk = o.llmFinal.isOk := by
  cases hf : o.llmFinal <;> simp [chatStream, hf, Except.isOk, Except.toBool]

/-- C5: in both Chat and ChatStream, at most one tool execution succeeds per
request; an MCP-stage execution happens only when no skill-stage execution
succeeded; ChatStream performs exactly the same tool executions as Chat;
and a tool execution error never aborts the request: the request outcome
succeeds exactly when the final model call does. -/
theorem at_most_one_tool_per_request (a : Agent) (message : String)
    (es em : Bool) (o : ChatOracle) :
    (((chat a message es em o).2.2.filter (fun i => i.ok)).length ≤ 1) ∧
    ((∃ i ∈ (chat a message es em o).2.2, i.stage = ToolStage.mcp) →
      ∀ j ∈ (chat a message es em o).2.2, j.stage = ToolStage.skill →
        j.ok = false) ∧
    ((chatStream a message es em o).2.2.2 = (chat a message es em o).2.2) ∧
    ((chat a message es em o).2.1.isOk = o.llmFinal.isOk) ∧
    ((chatStream a message es em o).2.1.isOk = o.llmFinal.isOk) := by
  refine ⟨?_, ?_, ?_, chat_result_ok a message es em o,
    chatStream_result_ok a message es em o⟩
  · rw [chat_invocations]
    exact (invocation_discipline a message es em o).1
  · rw [chat_invocations]
    exact (invocation_discipline a message es em o).2
  · rw [chat_invocations, chatStream_invocations]

theorem at_most_one_tool_per_request_witness :
    (∃ i ∈ (chat agentW "m" true true oracleW).2.2, i.stage = ToolStage.mcp) ∧
    (∀ j ∈ (chat agentW "m" true true oracleW).2.2,
      j.stage = ToolStage.skill → j.ok = false) := by
  have hinv : (chat agentW "m" true true oracleW).2.2 =
      [⟨"forecast", .skill, false⟩, ⟨"search", .mcp, true⟩] := by decide
  refine ⟨⟨⟨"search", .mcp, true⟩, by rw [hinv]; simp, rfl⟩, ?_⟩
  exact (at_most_one_tool_per_request agentW "m" true true oracleW).2.1
    ⟨⟨"search", .mcp, true⟩, by rw [hinv]; simp, rfl⟩

theorem skillPhase_of_badSkillReply (skills : List SkillInfo) (o : ChatOracle)
    (h : badSkillReply skills o.skillReply) :
    skillPhase skills o = ToolPhase.empty := by
  rcases h with h | ⟨n, hr, hf⟩
  · by_cases he : skills.isEmpty <;>
      simp [skillPhase, selectSkillForTask, h, he]
  · by_cases he : skills.isEmpty
    · simp [skillPhase, selectSkillForTask, hr, he]
    · have hs : selectSkillForTask skills o.skillReply = .ok n := by
        simp [selectSkillForTask, hr, he]
      unfold skillPhase
      rw [hs]
      by_cases hn : n = ""
      · simp [hn]
      · simp [hn, loadSkillTools, hf]

theorem mcpPhase_of_badToolReply (mcpTools : List Tool) (o : ChatOracle)
    (h : badToolReply mcpTools o.mcpToolReply) :
    mcpPhase mcpTools o = ToolPhase.empty := by
  rcases h with h | ⟨n, args, hr, hf⟩
  · by_cases he : mcpTools.isEmpty <;>
      simp [mcpPhase, selectToolForTask, h, he]
  · by_cases he : mcpTools.isEmpty
    · simp [mcpPhase, selectToolForTask, hr, he]
    · simp [mcpPhase, selectToolForTask, hr, he, hf]

theorem phase1_of_badSkillReply (a : Agent) (es : Bool) (o : ChatOracle)
    (h : badSkillReply a.skills o.skillReply) :
    phase1 a es o = ToolPhase.empty := by
  unfold phase1
  split
  · exact skillPhase_of_badSkillReply a.skills o h
  · rfl

theorem phase2_of_badToolReply (a : Agent) (em : Bool) (p1 : ToolPhase)
    (o : ChatOracle) (h : badToolReply a.mcpTools o.mcpToolReply) :
    phase2 a em p1 o = ToolPhase.empty := by
  unfold phase2
  split
  · exact mcpPhase_of_badToolReply a.mcpTools o h
  · rfl

/-- A bad tool-selection reply makes selectToolForTask return an error or no
tool, never a selected tool. -/
theorem selectToolForTask_of_badToolReply (ts : List Tool)
    (reply : Except String ToolDecision) (h : badToolReply ts reply) :
    (∃ e, selectToolForTask ts reply = .error e) ∨
      selectToolForTask ts reply = .ok none := by
  rcases h with h | ⟨n, args, hr, hf⟩
  · by_cases he : ts.isEmpty
    · right
      simp [selectToolForTask, he]
    · left
      refine ⟨"failed to parse tool decision", ?_⟩
      simp [selectToolForTask, he, h]
  · by_cases he : ts.isEmpty
    · right
      simp [selectToolForTask, he]
    · left
      refine ⟨"tool not found in available tools", ?_⟩
      simp [selectToolForTask, he, hr, hf]

/-- When any routing reply of the skill stage is bad, the skill stage
invokes no tool. -/
theorem skillPhase_of_skillStageBad (skills : List SkillInfo) (o : ChatOracle)
    (h : skillStageBad skills o) :
    skillPhase skills o = ToolPhase.empty := by
  rcases h with h | ⟨sel, ts, hsel, hload, hbad⟩
  · exact skillPhase_of_badSkillReply skills o h
  · unfold skillPhase
    rw [hsel]
    by_cases hn : sel = ""
    · simp [hn]
    · rcases selectToolForTask_of_badToolReply ts o.skillToolReply hbad with
        ⟨e, he⟩ | he <;>
      simp [hn, hload, he]

theorem phase1_of_skillStageBad (a : Agent) (es : Bool) (o : ChatOracle)
    (h : skillStageBad a.skills o) :
    phase1 a es o = ToolPhase.empty := by
  unfold phase1
  split
  · exact skillPhase_of_skillStageBad a.skills o h
  · rfl

/-- C6 (amended): any routing reply that fails JSON parsing or names an
unknown skill or tool — the skill-selection reply, the skill-stage
tool-selection reply, or the MCP tool-selection reply — causes its own
stage to invoke no tool, and the failure is never surfaced as a request
error (the request outcome succeeds exactly when the final model call
does); when every routing stage has such a reply, zero tools are invoked
and the request completes normally with the plain model answer, in both
Chat and ChatStream. -/
theorem routing_failure_contained (a : Agent) (message : String)
    (es em : Bool) (o : ChatOracle) :
    (skillStageBad a.skills o →
      ∀ i ∈ (chat a message es em o).2.2, i.stage ≠ ToolStage.skill) ∧
    (badToolReply a.mcpTools o.mcpToolReply →
      ∀ i ∈ (chat a message es em o).2.2, i.stage ≠ ToolStage.mcp) ∧
    ((chat a message es em o).2.1.isOk = o.llmFinal.isOk) ∧
    ((chatStream a message es em o).2.1.isOk = o.llmFinal.isOk) ∧
    (skillStageBad a.skills o ∧
        badToolReply a.mcpTools o.mcpToolReply →
      (chat a message es em o).2.2 = [] ∧
      (chatStream a message es em o).2.2.2 = [] ∧
      ∀ text, o.llmFinal = .ok text →
        (chat a message es em o).2.1 = .ok text ∧
        (chatStream a message es em o).2.1 = .ok text) := by
  have hsk : (withUserMessage a message).skills = a.skills := rfl
  have hmc : (withUserMessage a message).mcpTools = a.mcpTools := rfl
  refine ⟨?_, ?_, chat_result_ok a message es em o,
    chatStream_result_ok a message es em o, ?_⟩
  · intro h i hi
    rw [chat_invocations] at hi
    rw [phase1_of_skillStageBad (withUserMessage a message) es o
      (by rw [hsk]; exact h)] at hi
    rcases phase2_spec (withUserMessage a message) em ToolPhase.empty o with
        ⟨h2i, -⟩ | ⟨nm, h2i, -⟩ | ⟨nm, h2i, -⟩ <;>
      rw [h2i] at hi <;> simp [ToolPhase.empty] at hi <;> subst hi <;> simp
  · intro h i hi
    rw [chat_invocations] at hi
    rw [phase2_of_badToolReply (withUserMessage a message) em
      (phase1 (withUserMessage a message) es o) o (by rw [hmc]; exact h)] at hi
    rcases phase1_spec (withUserMessage a message) es o with
        ⟨h1i, -⟩ | ⟨nm, h1i, -⟩ | ⟨nm, h1i, -⟩ <;>
      rw [h1i] at hi <;> simp [ToolPhase.empty] at hi <;> subst hi <;> simp
  · rintro ⟨h1, h2⟩
    have e1 : phase1 (withUserMessage a message) es o = ToolPhase.empty :=
      phase1_of_skillStageBad (withUserMessage a message) es o
        (by rw [hsk]; exact h1)
    have e2 : phase2 (withUserMessage a message) em ToolPhase.empty o =
        ToolPhase.empty :=
      phase2_of_badToolReply (withUserMessage a message) em ToolPhase.empty o
        (by rw [hmc]; exact h2)
    refine ⟨?_, ?_, fun text htext => ⟨?_, ?_⟩⟩
    · rw [chat_invocations, e1, e2]
      rfl
    · rw [chatStream_invocations, e1, e2]
      rfl
    · simp [chat, htext]
    · have e2L : phase2 (withUserMessage a message) em
          ⟨false, "", "", [], []⟩ o = ToolPhase.empty := e2
      simp only [chatStream, withUserMessage] at e1 e2L ⊢
      simp [htext, e1, e2L, ToolPhase.empty, concatAll, String.empty_append]

/-- C6 (counterexample): the skill-routing reply names a skill absent from
the catalog, yet the request does not end with zero tool executions: the MCP
stage still executes a tool.  So a routing reply naming an unknown skill
does not imply zero tool invocations for the request. -/
theorem routing_failure_counterexample :
    badSkillReply agentCE.skills oracleCE.skillReply ∧
    (chat agentCE "hello" true true oracleCE).2.2 =
      [⟨"search", .mcp, true⟩] := by
  constructor
  · exact Or.inr ⟨"ghost", rfl, rfl⟩
  · decide

theorem routing_failure_contained_witness :
    (chat agentCE "q" true true oracleBadTool).2.2 = [] ∧
    (chatStream agentCE "q" true true oracleBadTool).2.2.2 = [] ∧
    (chat agentCE "q" true true oracleBadTool).2.1 = .ok "ans" ∧
    (chatStream agentCE "q" true true oracleBadTool).2.1 = .ok "ans" := by
  obtain ⟨hc, hs, hok⟩ :=
    (routing_failure_contained agentCE "q" true true oracleBadTool).2.2.2.2
      ⟨Or.inr ⟨"weather", [⟨"forecast"⟩], rfl, rfl, Or.inl rfl⟩, Or.inl rfl⟩
  exact ⟨hc, hs, (hok "ans" rfl).1, (hok "ans" rfl).2⟩

theorem concatAll_append (l1 l2 : List String) :
    concatAll (l1 ++ l2) = concatAll l1 ++ concatAll l2 := by
  induction l1 with
  | nil => simp [concatAll, String.empty_append]
  | cons a t ih =>
    simp only [List.cons_append, concatAll, List.foldr_cons] at ih ⊢
    rw [ih, String.append_assoc]

theorem getSession?_setSession (sm : SessionManager) (sid : String)
    (newMsgs : List Message)
    (h : (getSession? sm sid).isSome = true) :
    getSession? (setSession sm sid newMsgs) sid = some newMsgs := by
  obtain ⟨sessions, mh⟩ := sm
  induction sessions with
  | nil => simp [getSession?] at h
  | cons p t ih =>
    by_cases hp : p.1 == sid
    · simp only [getSession?, setSession, List.map_cons]
      rw [if_pos hp, List.find?_cons_of_pos (p := fun q => q.1 == sid)
        (a := (p.1, newMsgs)) _ hp]
      rfl
    · have h' : (getSession? ⟨t, mh⟩ sid).isSome = true := by
        simp only [getSession?] at h
        rw [List.find?_cons_of_neg (p := fun q => q.1 == sid) (a := p) _ hp] at h
        exact h
      have hrec := ih h'
      simp only [getSession?, setSession, List.map_cons] at hrec ⊢
      rw [if_neg hp, List.find?_cons_of_neg (p := fun q => q.1 == sid) (a := p) _ hp]
      exact hrec

/-- C2: in streaming mode, when the final model call succeeds and its
streamed tokens concatenate to its returned final text, the terminal event
is an end event whose message equals the concatenation of every chunk
payload delivered to the sink, equals the assistant message appended to the
agent history, and equals the assistant message persisted for the
session. -/
theorem stream_round_trip (sm : SessionManager) (a : Agent)
    (sessionID message : String) (es em : Bool) (o : ChatOracle)
    (msgId : String) (now : Nat) (text : String)
    (hfin : o.llmFinal = .ok text)
    (htok : concatAll o.llmTokens = text)
    (hsess : (getSession? sm sessionID).isSome = true) :
    ∃ full mid sm1 a1 events,
      handleChatStream sm a sessionID message es em o msgId now =
        (sm1, a1, events) ∧
      events.getLast? = some (SSEEvent.endEvent full mid) ∧
      concatAll (events.filterMap chunkText?) = full ∧
      a1.messages.getLast? = some ⟨"ai", full⟩ ∧
      (getSession? sm1 sessionID).bind List.getLast? =
        some ⟨msgId, "assistant", full, now, ""⟩ := by
  obtain ⟨oldMsgs, hold⟩ := Option.isSome_iff_exists.mp hsess
  have hcs : ∃ (a2 : Agent) (C : List String) (I : List ToolInvocation),
      chatStream a message es em o =
        (a2, .ok (concatAll C ++ text), C ++ o.llmTokens, I) ∧
      a2.messages.getLast? = some ⟨"ai", concatAll C ++ text⟩ := by
    simp only [chatStream, hfin]
    exact ⟨_, _, _, rfl, List.getLast?_concat _⟩
  obtain ⟨a2, C, I, hcs, hlast⟩ := hcs
  refine ⟨concatAll C ++ text, msgId,
    setSession sm sessionID (appendWithCap oldMsgs
      ⟨msgId, "assistant", concatAll C ++ text, now, ""⟩ sm.maxHistory),
    a2,
    [SSEEvent.start] ++ (C ++ o.llmTokens).map SSEEvent.chunk ++
      [SSEEvent.endEvent (concatAll C ++ text) msgId],
    ?_, ?_, ?_, ?_, ?_⟩
  · simp only [handleChatStream, hcs, addMessage, hold]
  · exact List.getLast?_concat _
  · simp only [List.filterMap_append, List.filterMap_map]
    have h3 : ∀ l : List String,
        List.filterMap (chunkText? ∘ SSEEvent.chunk) l = l := by
      intro l
      induction l with
      | nil => rfl
      | cons hd tl ih => simp [List.filterMap_cons, Function.comp, chunkText?, ih]
    rw [h3, h3]
    simp [chunkText?, concatAll_append, htok]
  · exact hlast
  · rw [getSession?_setSession sm sessionID _ (by rw [hold]; rfl)]
    exact appendWithCap_getLast oldMsgs _ sm.maxHistory

theorem stream_round_trip_witness :
    ∃ full mid sm1 a1 events,
      handleChatStream ⟨[("s", [])], 50⟩ ⟨[⟨"system", "sys"⟩], [], [], false, ""⟩
          "s" "hi" false false
          ⟨.error "", .ok .noTool, .error "", .ok .noTool, .error "",
            ["an", "swer"], .ok "answer"⟩ "mid1" 7 = (sm1, a1, events) ∧
      events.getLast? = some (SSEEvent.endEvent full mid) ∧
      concatAll (events.filterMap chunkText?) = full ∧
      a1.messages.getLast? = some ⟨"ai", full⟩ ∧
      (getSession? sm1 "s").bind List.getLast? =
        some ⟨"mid1", "assistant", full, 7, ""⟩ :=
  stream_round_trip ⟨[("s", [])], 50⟩ ⟨[⟨"system", "sys"⟩], [], [], false, ""⟩
    "s" "hi" false false
    ⟨.error "", .ok .noTool, .error "", .ok .noTool, .error "",
      ["an", "swer"], .ok "answer"⟩ "mid1" 7 "answer" rfl rfl rfl

/-- C8: a chat request rejected by admission control or failing session
lookup has no partial side effects: the semaphore count after the handler
returns equals its value before the request, and no message has been
appended to any session. -/
theorem rejected_request_no_side_effects (st : ServerState) (req : ChatRequest)
    (a : Agent) (o : ChatOracle) (uid aid : String) (now : Nat)
    (h : (handleChat st req a o uid aid now).2.2 = .busy ∨
      (handleChat st req a o uid aid now).2.2 = .sessionNotFound) :
    (handleChat st req a o uid aid now).1.sem.count = st.sem.count ∧
    (handleChat st req a o uid aid now).1.sm = st.sm := by
  by_cases hacq : st.sem.count < st.sem.maxConcurrent
  · by_cases hval : req.sessionID = "" ∨ req.message = ""
    · exfalso
      revert h
      simp [handleChat, acquireRequest, hacq, hval]
    · cases hsession : getSession? st.sm req.sessionID with
      | none =>
        simp [handleChat, acquireRequest, hacq, hval, hsession, releaseRequest]
      | some msgs =>
        exfalso
        revert h
        simp only [handleChat, acquireRequest, if_pos hacq, hsession,
          addMessage]
        rw [if_neg hval]
        by_cases hstream : req.stream = true
        · rw [if_pos hstream]
          rcases hh : handleChatStream
              (setSession st.sm req.sessionID
                (appendWithCap msgs ⟨uid, "user", req.message, now, ""⟩
                  st.sm.maxHistory))
              a req.sessionID req.message req.enableSkills req.enableMCP o
              aid now with ⟨sm2, a1, events⟩
          simp
        · rw [if_neg hstream]
          rcases hc : chat a req.message req.enableSkills req.enableMCP o with
            ⟨a1, res, invs⟩
          cases res <;> simp
  · simp [handleChat, acquireRequest, hacq]

theorem rejected_request_no_side_effects_witness :
    (handleChat ⟨⟨0, 2⟩, ⟨[("s", [])], 50⟩⟩ ⟨"t", "hi", false, false, false⟩
        ⟨[], [], [], false, ""⟩
        ⟨.error "", .ok .noTool, .error "", .ok .noTool, .error "", [],
          .ok "ans"⟩ "u1" "a1" 3).1.sem.count = 0 ∧
    (handleChat ⟨⟨0, 2⟩, ⟨[("s", [])], 50⟩⟩ ⟨"t", "hi", false, false, false⟩
        ⟨[], [], [], false, ""⟩
        ⟨.error "", .ok .noTool, .error "", .ok .noTool, .error "", [],
          .ok "ans"⟩ "u1" "a1" 3).1.sm = ⟨[("s", [])], 50⟩ :=
  rejected_request_no_side_effects ⟨⟨0, 2⟩, ⟨[("s", [])], 50⟩⟩
    ⟨"t", "hi", false, false, false⟩ ⟨[], [], [], false, ""⟩
    ⟨.error "", .ok .noTool, .error "", .ok .noTool, .error "", [], .ok "ans"⟩
    "u1" "a1" 3 (Or.inr rfl)

end Langchat
